import Mathlib

/-!
Shallow embedding, in Lean 4, of the voice-controlled-robot repository
(command_parser.py, robot_controller.py, computer_vision.py,
main_application.py), together with proofs settling the frozen claims
about it.

Strings are modelled as lists of characters; the Python `re` patterns used
by the parser (literals, character classes `\w \s \d`, greedy `+ * ?`,
alternation, word boundary `\b`, capture groups) are embedded by a small
backtracking engine whose priority order (leftmost start position, left
alternative first, greedy repetition longest first) matches CPython's.
Python floats only ever hold exactly representable values on the paths the
claims touch (150*0.6 = 90.0, 150*1.4 = 210.0, 640*0.1 = 64.0), so numeric
fields are modelled with rationals and integers.  The character classes are
modelled over ASCII, which covers the vocabulary and all inputs named by the
spec.
-/

abbrev Chars := List Char

/-- Python `\w` over ASCII: letters, digits, underscore. -/
def isWordChar (c : Char) : Bool := c.isAlphanum || c = '_'

/-- Python `\s` over ASCII: space, tab, newline, carriage return, vertical tab, form feed. -/
def isPySpace (c : Char) : Bool :=
  c = ' ' || c = '\t' || c = '\n' || c = '\r' || c = '\x0b' || c = '\x0c'

/-- Python `str.strip()` (ASCII whitespace). -/
def pyStrip (cs : Chars) : Chars :=
  ((cs.dropWhile isPySpace).reverse.dropWhile isPySpace).reverse

/-- Python `str.split()` with no argument: split on whitespace runs, no empty tokens. -/
def pySplit (cs : Chars) : List Chars :=
  (cs.splitOnP isPySpace).filter (fun w => !w.isEmpty)

/-- Normalisation at the top of `parse_command`: `text.lower().strip()`. -/
def normText (s : String) : Chars := pyStrip (s.data.map Char.toLower)

/-- Does the literal `s` occur in `cs` starting at index `i`? -/
def litAt (cs : Chars) (i : Nat) (s : Chars) : Bool :=
  ((cs.drop i).take s.length) == s

/-- Python's `needle in hay` substring test. -/
def isSubstr (needle hay : Chars) : Bool :=
  (List.range (hay.length + 1)).any (fun i => litAt hay i needle)

/-- Python `int()` on a nonempty string of decimal digits. -/
def digitsToNat (cs : Chars) : Nat :=
  cs.foldl (fun acc c => 10 * acc + (c.toNat - '0'.toNat)) 0

/-- Regular expressions, restricted to the constructs the repository's
patterns use.  `plus`/`star` only over single-character classes, as in the
source patterns (`\w+`, `\s+`, `\s*`, `\d+`); `opt` only over a literal
character (`s?`). -/
inductive RE where
  | lit : Chars → RE
  | plus : (Char → Bool) → RE
  | star : (Char → Bool) → RE
  | opt : Char → RE
  | seq : RE → RE → RE
  | alt2 : RE → RE → RE
  | wb : RE
  | grp : Nat → RE → RE

/-- Number of capture groups of a pattern (highest group index). -/
def numGroups : RE → Nat
  | .lit _ => 0
  | .plus _ => 0
  | .star _ => 0
  | .opt _ => 0
  | .seq a b => max (numGroups a) (numGroups b)
  | .alt2 a b => max (numGroups a) (numGroups b)
  | .wb => 0
  | .grp n r => max n (numGroups r)

/-- Is the character at index `i` (if any) a word character? -/
def isWordAt (cs : Chars) (i : Nat) : Bool :=
  match cs.get? i with
  | some c => isWordChar c
  | none => false

/-- Python `\b`: the two sides of position `i` disagree on word-ness. -/
def wbAt (cs : Chars) (i : Nat) : Bool :=
  (if i = 0 then false else isWordAt cs (i - 1)) != isWordAt cs i

/-- Length of the maximal run of `p`-characters starting at index `i`. -/
def runLen (p : Char → Bool) (cs : Chars) (i : Nat) : Nat :=
  ((cs.drop i).takeWhile p).length

/-- Captured groups: group index paired with captured characters, most
recent capture first. -/
abbrev Caps := List (Nat × Chars)

/-- Run pattern `r` on `cs` at position `i` with captures `caps`; return all
possible (end position, captures) outcomes in CPython backtracking priority
order (greedy repetition longest first, left alternative first).  The head
of the list is the match CPython commits to. -/
def mrun : RE → Chars → Nat → Caps → List (Nat × Caps)
  | .lit s, cs, i, caps => if litAt cs i s then [(i + s.length, caps)] else []
  | .plus p, cs, i, caps =>
      (List.range (runLen p cs i)).map (fun k => (i + runLen p cs i - k, caps))
  | .star p, cs, i, caps =>
      (List.range (runLen p cs i + 1)).map (fun k => (i + runLen p cs i - k, caps))
  | .opt c, cs, i, caps =>
      if cs.get? i = some c then [(i + 1, caps), (i, caps)] else [(i, caps)]
  | .seq a b, cs, i, caps =>
      (mrun a cs i caps).flatMap (fun jc => mrun b cs jc.1 jc.2)
  | .alt2 a b, cs, i, caps => mrun a cs i caps ++ mrun b cs i caps
  | .wb, cs, i, caps => if wbAt cs i then [(i, caps)] else []
  | .grp n r, cs, i, caps =>
      (mrun r cs i caps).map (fun jc => (jc.1, (n, (cs.take jc.1).drop i) :: jc.2))

/-- Search as `re.search` does: leftmost start position whose match attempt succeeds;
returns (start, end, captures) of the committed match. -/
def reSearch (r : RE) (cs : Chars) : Option (Nat × Nat × Caps) :=
  (List.range (cs.length + 1)).findSome? (fun i =>
    match mrun r cs i [] with
    | [] => none
    | jc :: _ => some (i, jc.1, jc.2))

/-- Value of capture group `n` in a capture record (most recent wins, as in
CPython where a repeated group keeps its last capture). -/
def capLookup (caps : Caps) (n : Nat) : Option Chars :=
  (caps.find? (fun p => p.1 == n)).map (fun p => p.2)

/-- Groups `match.groups()` of the leftmost match, as an ordered list, one entry
per group of the pattern (`none` for a group that did not participate). -/
def reGroups (r : RE) (cs : Chars) : Option (List (Option Chars)) :=
  (reSearch r cs).map (fun m =>
    (List.range (numGroups r)).map (fun k => capLookup m.2.2 (k + 1)))

/-- Literal pattern from a string. -/
def rlit (s : String) : RE := .lit s.data

/-- Right-nested alternation, left alternative first. -/
def altL : List RE → RE
  | [] => .lit ['\x00']
  | [r] => r
  | r :: rs => .alt2 r (altL rs)

/-- Right-nested concatenation. -/
def seqL : List RE → RE
  | [] => .lit []
  | [r] => r
  | r :: rs => .seq r (seqL rs)

def wS : RE := .plus isPySpace
def wS0 : RE := .star isPySpace
def wW : RE := .plus isWordChar
def wD : RE := .plus Char.isDigit

/- ------------------------------------------------------------------ -/
/- command_parser.py                                                   -/
/- ------------------------------------------------------------------ -/

/-- RobotAction enumeration from command_parser.py. -/
inductive RobotAction where
  | MOVE_FORWARD
  | MOVE_BACKWARD
  | TURN_LEFT
  | TURN_RIGHT
  | STOP
  | FIND_OBJECT
  | FOLLOW_OBJECT
  | AVOID_OBSTACLE
  | UNKNOWN
deriving DecidableEq, Repr

/-- A parameter value in a `RobotCommand.parameters` dict. -/
inductive PValue where
  | str : String → PValue
  | int : Int → PValue
deriving DecidableEq, Repr

/-- RobotCommand dataclass; the parameters dict is an insertion-ordered
association list (Python dicts preserve insertion order). -/
structure RobotCommand where
  action : RobotAction
  parameters : List (String × PValue)
  confidence : ℚ
deriving DecidableEq, Repr

/-- Python `dict.get(k)` on a parameters dict. -/
def lookupParam (ps : List (String × PValue)) (k : String) : Option PValue :=
  (ps.find? (fun p => p.1 == k)).map (fun p => p.2)

/-- The `CommandParser.known_objects` vocabulary. -/
def known_objects : List String :=
  ["ball", "person", "chair", "table", "bottle", "cup", "book",
   "phone", "laptop", "mouse", "keyboard", "car", "bicycle",
   "dog", "cat", "bird", "flower", "tree", "wall", "door"]

/-- All of `CommandParser.command_patterns`, in dict insertion order, each Python
regex transliterated into the `RE` embedding. -/
def command_patterns : List (RobotAction × List RE) :=
  [ (.MOVE_FORWARD,
      [ seqL [.wb, .grp 1 (altL [rlit "move", rlit "go", rlit "walk", rlit "drive"]),
              wS, .grp 2 (altL [rlit "forward", rlit "ahead", rlit "straight"]), .wb],
        seqL [.wb, .grp 1 (altL [rlit "forward", rlit "ahead"]), .wb],
        seqL [.wb, rlit "move", wS, rlit "forward", .wb] ]),
    (.MOVE_BACKWARD,
      [ seqL [.wb, .grp 1 (altL [rlit "move", rlit "go", rlit "walk", rlit "drive"]),
              wS, .grp 2 (altL [rlit "backward", rlit "back", rlit "reverse"]), .wb],
        seqL [.wb, .grp 1 (altL [rlit "backward", rlit "back", rlit "reverse"]), .wb],
        seqL [.wb, rlit "move", wS, rlit "back", .wb] ]),
    (.TURN_LEFT,
      [ seqL [.wb, .grp 1 (altL [rlit "turn", rlit "rotate", rlit "spin"]),
              wS, .grp 2 (altL [rlit "left", rlit "counterclockwise"]), .wb],
        seqL [.wb, .grp 1 (altL [rlit "left", seqL [rlit "turn", wS, rlit "left"]]), .wb],
        seqL [.wb, rlit "go", wS, rlit "left", .wb] ]),
    (.TURN_RIGHT,
      [ seqL [.wb, .grp 1 (altL [rlit "turn", rlit "rotate", rlit "spin"]),
              wS, .grp 2 (altL [rlit "right", rlit "clockwise"]), .wb],
        seqL [.wb, .grp 1 (altL [rlit "right", seqL [rlit "turn", wS, rlit "right"]]), .wb],
        seqL [.wb, rlit "go", wS, rlit "right", .wb] ]),
    (.STOP,
      [ seqL [.wb, .grp 1 (altL [rlit "stop", rlit "halt", rlit "pause", rlit "brake"]), .wb],
        seqL [.wb, rlit "stop", wS, .grp 1 (altL [rlit "moving", rlit "now"]), .wb],
        seqL [.wb, rlit "freeze", .wb] ]),
    (.FIND_OBJECT,
      [ seqL [.wb, .grp 1 (altL [rlit "find", rlit "search",
                                 seqL [rlit "look", wS, rlit "for"], rlit "locate"]),
              wS, .grp 2 wW, .wb],
        seqL [.wb, rlit "where", wS, rlit "is", wS, .grp 1 wW, .wb],
        seqL [.wb, rlit "search", wS, rlit "for", wS, .grp 1 wW, .wb] ]),
    (.FOLLOW_OBJECT,
      [ seqL [.wb, .grp 1 (altL [rlit "follow", rlit "chase", rlit "track"]),
              wS, .grp 2 wW, .wb],
        seqL [.wb, rlit "go", wS, rlit "to", wS, .grp 1 wW, .wb],
        seqL [.wb, rlit "move", wS, rlit "towards", wS, .grp 1 wW, .wb] ]),
    (.AVOID_OBSTACLE,
      [ seqL [.wb, .grp 1 (altL [rlit "avoid", rlit "dodge", seqL [rlit "go", wS, rlit "around"]]),
              wS, .grp 2 wW, .wb],
        seqL [.wb, rlit "stay", wS, rlit "away", wS, rlit "from", wS, .grp 1 wW, .wb] ])
  ]

/-- Pattern `r'\b(slow|fast|quick|slowly|quickly)\b'`. -/
def speedRE : RE :=
  seqL [.wb, .grp 1 (altL [rlit "slow", rlit "fast", rlit "quick", rlit "slowly", rlit "quickly"]), .wb]

/-- Pattern `r'\b(\d+)\s*(second|minute|meter|step)s?\b'`. -/
def durationRE : RE :=
  seqL [.wb, .grp 1 wD, wS0,
        .grp 2 (altL [rlit "second", rlit "minute", rlit "meter", rlit "step"]),
        .opt 's', .wb]

/-- The nested pattern loop of `parse_command`: first action (in dict
order) one of whose patterns (in list order) matches, together with the
matching pattern. -/
def findMatch : List (RobotAction × List RE) → Chars → Option (RobotAction × RE)
  | [], _ => none
  | (a, ps) :: rest, cs =>
    match ps.find? (fun r => (reSearch r cs).isSome) with
    | some r => some (a, r)
    | none => findMatch rest cs

/-- Last non-`None` entry of `match.groups()` (the code walks
`reversed(match.groups())`). -/
def lastSome (gs : List (Option Chars)) : Option Chars :=
  gs.reverse.findSome? id

/-- Object-extraction section of `parse_command` for object-bearing
actions: returns the `'object'` entries to insert and the confidence. -/
def objectParams (r : RE) (cs : Chars) : List (String × PValue) × ℚ :=
  if numGroups r > 0 then
    match lastSome ((reGroups r cs).getD []) with
    | some g =>
        if g.isEmpty then ([], 8/10)
        else ([("object", .str (String.mk g))],
              if String.mk g ∈ known_objects then 9/10 else 8/10)
    | none => ([], 8/10)
  else
    match (pySplit cs).find? (fun w => String.mk w ∈ known_objects) with
    | some w => ([("object", .str (String.mk w))], 7/10)
    | none => ([], 8/10)

/-- Speed-modifier section of `parse_command`. -/
def speedParams (cs : Chars) : List (String × PValue) :=
  match reGroups speedRE cs with
  | some (some g :: _) => [("speed", .str (String.mk g))]
  | _ => []

/-- Duration-modifier section of `parse_command`. -/
def durationParams (cs : Chars) : List (String × PValue) :=
  match reGroups durationRE cs with
  | some (some d :: some u :: _) =>
      [("duration", .int (digitsToNat d)), ("unit", .str (String.mk u))]
  | _ => []

/-- The `CommandParser.parse_command` function. -/
def parse_command (text : String) : RobotCommand :=
  let cs := normText text
  if cs.isEmpty then ⟨.UNKNOWN, [], 0⟩
  else
    match findMatch command_patterns cs with
    | some (a, r) =>
        let op :=
          if a = .FIND_OBJECT ∨ a = .FOLLOW_OBJECT ∨ a = .AVOID_OBSTACLE then
            objectParams r cs
          else ([], 8/10)
        ⟨a, op.1 ++ speedParams cs ++ durationParams cs, op.2⟩
    | none => ⟨.UNKNOWN, [("original_text", .str (String.mk cs))], 0⟩

/- ------------------------------------------------------------------ -/
/- robot_controller.py                                                 -/
/- ------------------------------------------------------------------ -/

/-- Field `RobotController.default_speed` (PWM base value). -/
def default_speed : Int := 150

/-- Field `RobotController.turn_duration` (seconds). -/
def turn_duration : ℚ := 1/2

/-- Field `RobotController.move_duration` (seconds). -/
def move_duration : ℚ := 1

/-- Python `int()` truncation (toward zero) of a rational; Lean `Int`
division truncates toward zero. -/
def pyInt (q : ℚ) : Int := q.num / (q.den : Int)

/-- The `command_data` dict assembled by `RobotController.execute_command`
(timestamp omitted: it is wall-clock metadata).  Motor and duration entries
are present only for locomotion actions; `object`/`vision_mode` only for
vision actions. -/
structure CommandData where
  action : String
  speed : Int
  left_motor : Option Int
  right_motor : Option Int
  duration : Option ℚ
  object : Option String
  vision_mode : Bool
deriving DecidableEq, Repr

/-- Speed selection at the top of `execute_command`: the base PWM scaled by
`0.6` / `1.4` for slow / fast qualifiers, `int()`-truncated. -/
def commandSpeed (ps : List (String × PValue)) : Int :=
  match lookupParam ps "speed" with
  | some (.str m) =>
      if m = "slow" ∨ m = "slowly" then pyInt ((default_speed : ℚ) * (6/10))
      else if m = "fast" ∨ m = "quick" ∨ m = "quickly" then pyInt ((default_speed : ℚ) * (14/10))
      else default_speed
  | _ => default_speed

/-- Duration selection of `execute_command`: the `'duration'` parameter,
times 60 when the `'unit'` parameter is `'minute'`; `none` when absent. -/
def commandDuration (ps : List (String × PValue)) : Option Int :=
  match lookupParam ps "duration" with
  | some (.int n) =>
      some (if lookupParam ps "unit" = some (.str "minute") then n * 60 else n)
  | _ => none

/-- Python's `duration or default`: `None` and `0` are both falsy and fall
back to the default. -/
def durOrDefault (d : Option Int) (dft : ℚ) : ℚ :=
  match d with
  | some n => if n = 0 then dft else (n : ℚ)
  | none => dft

/-- The `RobotController.execute_command` function: `none` models the `return False` on
an Unknown action (nothing is sent); otherwise the assembled command data.
An action falling through every branch keeps only the base dict. -/
def execute_command (c : RobotCommand) : Option CommandData :=
  if c.action = .UNKNOWN then none
  else
    let speed := commandSpeed c.parameters
    let dur := commandDuration c.parameters
    match c.action with
    | .MOVE_FORWARD =>
        some ⟨"move_forward", speed, some speed, some speed,
              some (durOrDefault dur move_duration), none, false⟩
    | .MOVE_BACKWARD =>
        some ⟨"move_backward", speed, some (-speed), some (-speed),
              some (durOrDefault dur move_duration), none, false⟩
    | .TURN_LEFT =>
        some ⟨"turn_left", speed, some (-speed), some speed,
              some (durOrDefault dur turn_duration), none, false⟩
    | .TURN_RIGHT =>
        some ⟨"turn_right", speed, some speed, some (-speed),
              some (durOrDefault dur turn_duration), none, false⟩
    | .STOP =>
        some ⟨"stop", speed, some 0, some 0, some 0, none, false⟩
    | _ =>
        some ⟨(match c.action with
               | .FIND_OBJECT => "find_object"
               | .FOLLOW_OBJECT => "follow_object"
               | _ => "avoid_obstacle"),
              speed, none, none, none,
              some (match lookupParam c.parameters "object" with
                    | some (.str s) => s
                    | _ => "unknown"), true⟩

/- ------------------------------------------------------------------ -/
/- computer_vision.py                                                  -/
/- ------------------------------------------------------------------ -/

/-- DetectedObject dataclass. -/
structure DetectedObject where
  name : String
  confidence : ℚ
  bbox : Int × Int × Int × Int
  center : Int × Int
  area : Int
deriving DecidableEq, Repr

/-- The `ComputerVision.find_object` method: first detected object whose lowered name
contains the lowered query as a substring.  The detected-objects field is
passed explicitly as the snapshot. -/
def find_object (objs : List DetectedObject) (object_name : String) : Option DetectedObject :=
  let n := object_name.data.map Char.toLower
  objs.find? (fun o => isSubstr n (o.name.data.map Char.toLower))

/-- Python `max(candidates, key=...)` keeps the first maximal element
(a later element replaces the current one only when strictly greater). -/
def pyMaxArea : List DetectedObject → Option DetectedObject
  | [] => none
  | x :: xs => some (xs.foldl (fun m o => if o.area > m.area then o else m) x)

/-- The candidate list of `get_largest_object`: all objects, or those whose
lowered name contains the lowered filter, the filter being applied only
when the `object_type` argument is truthy (non-`None` and nonempty). -/
def largestCandidates (objs : List DetectedObject) (object_type : Option String) :
    List DetectedObject :=
  match object_type with
  | some t =>
      if t = "" then objs
      else objs.filter (fun o =>
        isSubstr (t.data.map Char.toLower) (o.name.data.map Char.toLower))
  | none => objs

/-- The `ComputerVision.get_largest_object` method. -/
def get_largest_object (objs : List DetectedObject) (object_type : Option String) :
    Option DetectedObject :=
  pyMaxArea (largestCandidates objs object_type)

/-- The `ComputerVision.get_object_direction` method: frame centre is `frame_width // 2`
(Python floor division), the dead-zone is ±10% of the width. -/
def get_object_direction (o : DetectedObject) (frame_width : Int) : String :=
  let center_x := o.center.1
  let frame_center := Int.fdiv frame_width 2
  let threshold : ℚ := (frame_width : ℚ) * (1/10)
  if (center_x : ℚ) < (frame_center : ℚ) - threshold then "left"
  else if (center_x : ℚ) > (frame_center : ℚ) + threshold then "right"
  else "center"

/- ------------------------------------------------------------------ -/
/- main_application.py                                                 -/
/- ------------------------------------------------------------------ -/

/-- The argument pair of a `_move_robot` call: action name and duration in
seconds (`_move_robot`'s default duration is 1.0). -/
structure Directive where
  action : String
  duration : ℚ
deriving DecidableEq, Repr

/-- The `object_name` read at the top of `_handle_vision_command`
(`command.parameters.get('object', '')`). -/
def visionObjectName (c : RobotCommand) : String :=
  match lookupParam c.parameters "object" with
  | some (.str s) => s
  | _ => ""

/-- The `VoiceControlledRobot._handle_vision_command` method, as the `_move_robot`
directive it emits against snapshot `objs` (`none` when no motor command is
issued, e.g. a FindObject target already centred, or an action the method
does not handle). -/
def handle_vision_command (c : RobotCommand) (objs : List DetectedObject) :
    Option Directive :=
  let object_name := visionObjectName c
  if c.action = .FIND_OBJECT then
    match find_object objs object_name with
    | some o =>
        let d := get_object_direction o 640
        if d = "left" then some ⟨"turn_left", 1/2⟩
        else if d = "right" then some ⟨"turn_right", 1/2⟩
        else none
    | none => some ⟨"turn_right", 1⟩
  else if c.action = .FOLLOW_OBJECT then
    match find_object objs object_name with
    | some o =>
        let d := get_object_direction o 640
        if d = "left" then some ⟨"turn_left", 3/10⟩
        else if d = "right" then some ⟨"turn_right", 3/10⟩
        else if o.area < 8000 then some ⟨"move_forward", 1/2⟩
        else some ⟨"stop", 1⟩
    | none => some ⟨"turn_right", 1/2⟩
  else none

/-- The `VoiceControlledRobot._handle_autonomous_mode` method, as the `_move_robot`
directive it emits against snapshot `objs`. -/
def handle_autonomous_mode (objs : List DetectedObject) : Option Directive :=
  match get_largest_object objs none with
  | some o =>
      let d := get_object_direction o 640
      if d = "left" then some ⟨"turn_left", 1/5⟩
      else if d = "right" then some ⟨"turn_right", 1/5⟩
      else if d = "center" then
        (if o.area < 10000 then some ⟨"move_forward", 1/2⟩ else some ⟨"stop", 1⟩)
      else none
  | none => some ⟨"turn_right", 3/10⟩


/-- Sample detected objects (areas 400 / 1600 / 900, the spec's tie-free
largest-object example; bounding data from the repository's test suite). -/
def objA : DetectedObject := ⟨"small_ball", 8/10, (10, 10, 20, 20), (20, 20), 400⟩

def objB : DetectedObject := ⟨"large_ball", 7/10, (50, 50, 40, 40), (70, 70), 1600⟩

def objC : DetectedObject := ⟨"medium_ball", 9/10, (100, 100, 30, 30), (115, 115), 900⟩

/-- A small ball whose centre x = 320 sits exactly on the 640-wide frame's
midpoint (direction "center") and whose area 100 is below every proximity
threshold. -/
def objCenterSmall : DetectedObject := ⟨"ball", 8/10, (305, 50, 30, 30), (320, 65), 100⟩

/-- The command "find the ball" is meant to resolve to. -/
def cmdFindBall : RobotCommand := ⟨.FIND_OBJECT, [("object", .str "ball")], 9/10⟩

/-- The command "follow the ball" is meant to resolve to. -/
def cmdFollowBall : RobotCommand := ⟨.FOLLOW_OBJECT, [("object", .str "ball")], 9/10⟩


/-- Claim-side speed formula (C5's words): base PWM value 150 scaled by 0.6
(truncated to integer) for "slow"/"slowly", by 1.4 for
"fast"/"quick"/"quickly", unscaled otherwise. -/
def claimSpeed (ps : List (String × PValue)) : Int :=
  match lookupParam ps "speed" with
  | some (.str m) =>
      if m = "slow" ∨ m = "slowly" then pyInt ((150 : ℚ) * (6/10))
      else if m = "fast" ∨ m = "quick" ∨ m = "quickly" then pyInt ((150 : ℚ) * (14/10))
      else 150
  | _ => 150

/-- Claim-side duration formula for C5 as amended: the duration parameter
(times 60 when the unit is "minute") when present and nonzero, otherwise
the given component default (Python's `duration or default` treats 0 as
absent). -/
def claimDuration (ps : List (String × PValue)) (dft : ℚ) : ℚ :=
  match lookupParam ps "duration" with
  | some (.int n) =>
      let m := if lookupParam ps "unit" = some (.str "minute") then n * 60 else n
      if m = 0 then dft else (m : ℚ)
  | _ => dft


/-- The (action, pattern) pairs in the exact order `parse_command` tries
them: actions in dict insertion order, patterns within an action in list
order. -/
def flatPatterns : List (RobotAction × RE) :=
  command_patterns.flatMap (fun p => p.2.map (fun r => (p.1, r)))

/-- Does the j-th entry of `flatPatterns` match the text? (false when out
of range). -/
def matchesAt (cs : Chars) (j : Nat) : Bool :=
  ((flatPatterns.get? j).map (fun q => (reSearch q.2 cs).isSome)).getD false


/- ------------------------------------------------------------------ -/
/- Claims                                                              -/
/- ------------------------------------------------------------------ -/

/-- C1.  The claim says `parse_command "find the ball"` yields action
FindObject with `parameters["object"] = "ball"` and confidence 0.9 — and so
do the repository's own test suites (`test_object_commands` in
test_suite.py and test_suite_simple.py).  The code disagrees: the pattern
`\b(find|search|look\s+for|locate)\s+(\w+)\b` captures the word right
after the verb, which in "find the ball" is the article "the"; "the" is not
in the known-object vocabulary, so confidence stays 0.8.  This theorem
evaluates the embedded parser at the failing input. -/
theorem C1_find_the_ball_eval :
    parse_command "find the ball" =
      ⟨.FIND_OBJECT, [("object", .str "the")], 8/10⟩ := by
  rfl

/-- C4.  `get_object_direction` with frame width 640: x=320 is "center",
x=639 is "right", x=1 is "left", x=288 is "center"; and in general, for a
nonnegative frame width, the result is "left" iff the centre x is below
`width // 2` minus a tenth of the width, "right" iff above `width // 2`
plus a tenth of the width, and "center" otherwise. -/
theorem C4_direction_dead_zone :
    get_object_direction ⟨"ball", 8/10, (305, 50, 30, 30), (320, 65), 900⟩ 640 = "center"
    ∧ get_object_direction ⟨"ball", 8/10, (624, 50, 30, 30), (639, 65), 900⟩ 640 = "right"
    ∧ get_object_direction ⟨"ball", 8/10, (0, 50, 2, 30), (1, 65), 900⟩ 640 = "left"
    ∧ get_object_direction ⟨"ball", 8/10, (273, 50, 30, 30), (288, 65), 900⟩ 640 = "center"
    ∧ ∀ (o : DetectedObject) (w : Int), 0 ≤ w →
        (get_object_direction o w = "left" ↔
          (o.center.1 : ℚ) < (Int.fdiv w 2 : ℚ) - (w : ℚ) / 10)
        ∧ (get_object_direction o w = "right" ↔
          (o.center.1 : ℚ) > (Int.fdiv w 2 : ℚ) + (w : ℚ) / 10)
        ∧ (get_object_direction o w = "center" ↔
          (¬ (o.center.1 : ℚ) < (Int.fdiv w 2 : ℚ) - (w : ℚ) / 10
           ∧ ¬ (o.center.1 : ℚ) > (Int.fdiv w 2 : ℚ) + (w : ℚ) / 10)) := by
  have hgen : ∀ (o : DetectedObject) (w : Int), 0 ≤ w →
      (get_object_direction o w = "left" ↔
        (o.center.1 : ℚ) < (Int.fdiv w 2 : ℚ) - (w : ℚ) / 10)
      ∧ (get_object_direction o w = "right" ↔
        (o.center.1 : ℚ) > (Int.fdiv w 2 : ℚ) + (w : ℚ) / 10)
      ∧ (get_object_direction o w = "center" ↔
        (¬ (o.center.1 : ℚ) < (Int.fdiv w 2 : ℚ) - (w : ℚ) / 10
         ∧ ¬ (o.center.1 : ℚ) > (Int.fdiv w 2 : ℚ) + (w : ℚ) / 10)) := by
    intro o w hw
    have hw' : (0 : ℚ) ≤ (w : ℚ) / 10 := by
      have : (0 : ℚ) ≤ (w : ℚ) := by exact_mod_cast hw
      linarith
    have hq : (w : ℚ) * (1/10) = (w : ℚ) / 10 := by ring
    unfold get_object_direction
    dsimp only
    rw [hq]
    split_ifs with h1 h2
    · exact ⟨⟨fun _ => h1, fun _ => rfl⟩,
        ⟨fun h => absurd h (by decide), fun hc => absurd hc (by linarith)⟩,
        ⟨fun h => absurd h (by decide), fun h => absurd h1 h.1⟩⟩
    · exact ⟨⟨fun h => absurd h (by decide), fun h => absurd h h1⟩,
        ⟨fun _ => h2, fun _ => rfl⟩,
        ⟨fun h => absurd h (by decide), fun h => absurd h2 h.2⟩⟩
    · exact ⟨⟨fun h => absurd h (by decide), fun h => absurd h h1⟩,
        ⟨fun h => absurd h (by decide), fun h => absurd h h2⟩,
        ⟨fun _ => ⟨h1, h2⟩, fun _ => rfl⟩⟩
  have h640 : Int.fdiv 640 2 = 320 := by decide
  refine ⟨?_, ?_, ?_, ?_, hgen⟩
  · refine ((hgen _ 640 (by norm_num)).2.2).mpr ?_
    rw [h640]; dsimp only; norm_num
  · refine ((hgen _ 640 (by norm_num)).2.1).mpr ?_
    rw [h640]; dsimp only; norm_num
  · refine ((hgen _ 640 (by norm_num)).1).mpr ?_
    rw [h640]; dsimp only; norm_num
  · refine ((hgen _ 640 (by norm_num)).2.2).mpr ?_
    rw [h640]; dsimp only; norm_num

/-- Witness for C4: the general clause applied at frame width 640 (its
nonnegativity hypothesis discharged) classifies an object at x=1 as
"left". -/
theorem C4_direction_dead_zone_witness :
    get_object_direction ⟨"ball", 8/10, (0, 50, 2, 30), (1, 65), 900⟩ 640 = "left" := by
  refine ((C4_direction_dead_zone.2.2.2.2
    ⟨"ball", 8/10, (0, 50, 2, 30), (1, 65), 900⟩ 640 (by norm_num)).1).mpr ?_
  have h640 : Int.fdiv 640 2 = 320 := by decide
  rw [h640]; dsimp only; norm_num

/-- Python `max(xs, key=area)` characterisation: the running-maximum fold
returns the first element achieving the maximal area — everything before it
in the list is strictly smaller, everything after it no larger. -/
theorem pyMaxArea_split (xs : List DetectedObject) : ∀ (x : DetectedObject),
    ∃ l1 l2,
      x :: xs = l1 ++ (xs.foldl (fun m o => if o.area > m.area then o else m) x) :: l2
      ∧ (∀ y ∈ l1, y.area < (xs.foldl (fun m o => if o.area > m.area then o else m) x).area)
      ∧ (∀ y ∈ l2, y.area ≤ (xs.foldl (fun m o => if o.area > m.area then o else m) x).area) := by
  induction xs with
  | nil =>
      intro x
      exact ⟨[], [], rfl, by simp, by simp⟩
  | cons y ys ih =>
      intro x
      by_cases hy : y.area > x.area
      · have hstep : (y :: ys).foldl (fun m o => if o.area > m.area then o else m) x
            = ys.foldl (fun m o => if o.area > m.area then o else m) y := by
          rw [List.foldl_cons, if_pos hy]
        obtain ⟨l1, l2, heq, hlt, hle⟩ := ih y
        rw [hstep]
        have hyr : y.area ≤ (ys.foldl (fun m o => if o.area > m.area then o else m) y).area := by
          cases l1 with
          | nil =>
              rw [List.nil_append] at heq
              injection heq with h1 _
              rw [← h1]
          | cons z l1' =>
              rw [List.cons_append] at heq
              injection heq with h1 _
              have harea : y.area = z.area := congrArg DetectedObject.area h1
              rw [harea]
              exact le_of_lt (hlt z (List.mem_cons_self z l1'))
        refine ⟨x :: l1, l2, ?_, ?_, hle⟩
        · exact congrArg (fun t => x :: t) heq
        · intro y' hy'
          rcases List.mem_cons.mp hy' with h | h
          · rw [h]; exact lt_of_lt_of_le hy hyr
          · exact hlt y' h
      · have hstep : (y :: ys).foldl (fun m o => if o.area > m.area then o else m) x
            = ys.foldl (fun m o => if o.area > m.area then o else m) x := by
          rw [List.foldl_cons, if_neg hy]
        obtain ⟨l1, l2, heq, hlt, hle⟩ := ih x
        rw [hstep]
        cases l1 with
        | nil =>
            rw [List.nil_append] at heq
            injection heq with h1 h2
            refine ⟨[], y :: l2, ?_, by simp, ?_⟩
            · rw [List.nil_append, ← h1, h2]
            · intro y' hy'
              rcases List.mem_cons.mp hy' with h | h
              · rw [h, ← h1]; exact le_of_not_lt hy
              · exact hle y' h
        | cons z l1' =>
            rw [List.cons_append] at heq
            injection heq with h1 h2
            refine ⟨x :: y :: l1', l2, ?_, ?_, hle⟩
            · exact congrArg (fun t => x :: y :: t) h2
            · intro y' hy'
              have hx : x.area < (ys.foldl (fun m o => if o.area > m.area then o else m) x).area := by
                have := hlt z (List.mem_cons_self z l1')
                rw [← h1] at this
                exact this
              rcases List.mem_cons.mp hy' with h | h
              · rw [h]; exact hx
              · rcases List.mem_cons.mp h with h' | h'
                · rw [h']; exact lt_of_le_of_lt (le_of_not_lt hy) hx
                · exact hlt y' (List.mem_cons_of_mem z h')

/-- C9.  `get_largest_object` returns `none` exactly when the candidate set
is empty; a returned object splits the candidate list into a strictly
smaller prefix and a no-larger suffix (i.e. it is the first entry achieving
the maximum area, ties broken by snapshot order); with no filter the
candidates are the whole snapshot, with a nonempty filter those whose name
contains the filter case-insensitively; and any snapshot whose areas are a
permutation of [400, 1600, 900] yields the area-1600 object. -/
theorem C9_largest_object (objs : List DetectedObject) (filt : Option String) :
    (get_largest_object objs filt = none ↔ largestCandidates objs filt = [])
    ∧ (∀ o, get_largest_object objs filt = some o →
        ∃ l1 l2, largestCandidates objs filt = l1 ++ o :: l2
          ∧ (∀ x ∈ l1, x.area < o.area) ∧ (∀ x ∈ l2, x.area ≤ o.area))
    ∧ largestCandidates objs none = objs
    ∧ (∀ t : String, t ≠ "" → largestCandidates objs (some t) =
        objs.filter (fun o => isSubstr (t.data.map Char.toLower) (o.name.data.map Char.toLower)))
    ∧ (∀ l : List DetectedObject, (l.map DetectedObject.area).Perm [400, 1600, 900] →
        ∃ o, get_largest_object l none = some o ∧ o.area = 1600) := by
  refine ⟨?_, ?_, rfl, ?_, ?_⟩
  · cases hc : largestCandidates objs filt with
    | nil => simp [get_largest_object, hc, pyMaxArea]
    | cons x xs => simp [get_largest_object, hc, pyMaxArea]
  · intro o h
    unfold get_largest_object at h
    cases hc : largestCandidates objs filt with
    | nil => rw [hc] at h; simp [pyMaxArea] at h
    | cons x xs =>
        rw [hc] at h
        have ho : xs.foldl (fun m o => if o.area > m.area then o else m) x = o := by
          simpa [pyMaxArea] using h
        obtain ⟨l1, l2, heq, hlt, hle⟩ := pyMaxArea_split xs x
        rw [ho] at heq hlt hle
        exact ⟨l1, l2, heq, hlt, hle⟩
  · intro t ht
    simp [largestCandidates, ht]
  · intro l hperm
    cases l with
    | nil => simpa using hperm.length_eq
    | cons x xs =>
        obtain ⟨l1, l2, heq, hlt, hle⟩ := pyMaxArea_split xs x
        have hglo : get_largest_object (x :: xs) none
            = some (xs.foldl (fun m o => if o.area > m.area then o else m) x) := rfl
        refine ⟨_, hglo, ?_⟩
        set r := xs.foldl (fun m o => if o.area > m.area then o else m) x with hr
        have hmax : ∀ y ∈ x :: xs, y.area ≤ r.area := by
          intro y hy
          rw [heq] at hy
          rcases List.mem_append.mp hy with h | h
          · exact le_of_lt (hlt y h)
          · rcases List.mem_cons.mp h with h' | h'
            · rw [h']
            · exact hle y h'
        have hrmem : r ∈ x :: xs := by
          rw [heq]; exact List.mem_append.mpr (Or.inr (List.mem_cons_self _ _))
        have hr3 : r.area ∈ ([400, 1600, 900] : List Int) :=
          hperm.mem_iff.mp (List.mem_map_of_mem DetectedObject.area hrmem)
        have h1600 : (1600 : Int) ∈ (x :: xs).map DetectedObject.area :=
          hperm.mem_iff.mpr (by simp)
        obtain ⟨y, hy, hyarea⟩ := List.mem_map.mp h1600
        have hle1600 : (1600 : Int) ≤ r.area := hyarea ▸ hmax y hy
        simp only [List.mem_cons, List.mem_singleton, List.not_mem_nil, or_false] at hr3
        rcases hr3 with h | h | h <;> omega

/-- Witness for C9: applying the permutation clause at a concrete
three-object snapshot in scrambled order yields the area-1600 object. -/
theorem C9_largest_object_witness :
    ∃ o, get_largest_object [objC, objA, objB] none = some o ∧ o.area = 1600 :=
  (C9_largest_object [objC, objA, objB] none).2.2.2.2 [objC, objA, objB] (by decide)

/-- C3 counterexample.  The claim includes FindObject among the modes where
a centred object yields "move forward" or "stop"; but in the FindObject
branch of `_handle_vision_command` a centred object is only logged — no
motor directive is emitted at all.  Concretely: the ball is present, its
direction is "center", yet the handler returns no directive. -/
theorem C3_counterexample :
    find_object [objCenterSmall] "ball" = some objCenterSmall
    ∧ get_object_direction objCenterSmall 640 = "center"
    ∧ handle_vision_command cmdFindBall [objCenterSmall] = none := by
  have h640 : Int.fdiv 640 2 = 320 := by decide
  have hdir : get_object_direction objCenterSmall 640 = "center" := by
    unfold get_object_direction
    dsimp only [objCenterSmall]
    rw [h640]
    norm_num
  refine ⟨rfl, hdir, ?_⟩
  unfold handle_vision_command
  have hact : cmdFindBall.action = RobotAction.FIND_OBJECT := rfl
  rw [if_pos hact]
  have hvn : visionObjectName cmdFindBall = "ball" := rfl
  have hfo : find_object [objCenterSmall] "ball" = some objCenterSmall := rfl
  rw [hvn, hfo]
  dsimp only
  rw [hdir, if_neg (by decide), if_neg (by decide)]

/-- C3 amended.  In the FollowObject branch and in autonomous mode, a
centred object yields "move forward" when its area is below the mode's
proximity threshold (8000 for FollowObject, 10000 for autonomous) and
"stop" otherwise; an absent object yields the fixed turn-right search
directive in every mode (durations 0.5s follow / 1.0s find / 0.3s
autonomous); but in the FindObject branch a centred object yields no motor
directive. -/
theorem C3_vision_center_policy (c : RobotCommand) (objs : List DetectedObject)
    (o : DetectedObject) :
    (c.action = .FOLLOW_OBJECT →
      (find_object objs (visionObjectName c) = some o →
        get_object_direction o 640 = "center" →
        handle_vision_command c objs =
          some (if o.area < 8000 then ⟨"move_forward", 1/2⟩ else ⟨"stop", 1⟩))
      ∧ (find_object objs (visionObjectName c) = none →
        handle_vision_command c objs = some ⟨"turn_right", 1/2⟩))
    ∧ (c.action = .FIND_OBJECT →
      (find_object objs (visionObjectName c) = some o →
        get_object_direction o 640 = "center" →
        handle_vision_command c objs = none)
      ∧ (find_object objs (visionObjectName c) = none →
        handle_vision_command c objs = some ⟨"turn_right", 1⟩))
    ∧ ((get_largest_object objs none = some o →
        get_object_direction o 640 = "center" →
        handle_autonomous_mode objs =
          some (if o.area < 10000 then ⟨"move_forward", 1/2⟩ else ⟨"stop", 1⟩))
      ∧ (get_largest_object objs none = none →
        handle_autonomous_mode objs = some ⟨"turn_right", 3/10⟩)) := by
  refine ⟨fun hact => ⟨?_, ?_⟩, fun hact => ⟨?_, ?_⟩, ?_, ?_⟩
  · intro hfind hdir
    unfold handle_vision_command
    rw [if_neg (by rw [hact]; decide), if_pos hact, hfind]
    dsimp only
    rw [hdir, if_neg (by decide), if_neg (by decide)]
    by_cases h8 : o.area < 8000 <;> simp [h8]
  · intro hfind
    unfold handle_vision_command
    rw [if_neg (by rw [hact]; decide), if_pos hact, hfind]
  · intro hfind hdir
    unfold handle_vision_command
    rw [if_pos hact, hfind]
    dsimp only
    rw [hdir, if_neg (by decide), if_neg (by decide)]
  · intro hfind
    unfold handle_vision_command
    rw [if_pos hact, hfind]
  · intro hlarge hdir
    unfold handle_autonomous_mode
    rw [hlarge]
    dsimp only
    rw [hdir, if_neg (by decide), if_neg (by decide), if_pos rfl]
    by_cases h10 : o.area < 10000 <;> simp [h10]
  · intro hlarge
    unfold handle_autonomous_mode
    rw [hlarge]

/-- Witness for C3 amended: the FollowObject clause applied to a concrete
centred small ball emits "move forward" for 0.5s. -/
theorem C3_vision_center_policy_witness :
    handle_vision_command cmdFollowBall [objCenterSmall] = some ⟨"move_forward", 1/2⟩ := by
  have h640 : Int.fdiv 640 2 = 320 := by decide
  have hdir : get_object_direction objCenterSmall 640 = "center" := by
    unfold get_object_direction
    dsimp only [objCenterSmall]
    rw [h640]
    norm_num
  have h := ((C3_vision_center_policy cmdFollowBall [objCenterSmall] objCenterSmall).1
    rfl).1 rfl hdir
  rw [h, if_pos (by norm_num [objCenterSmall])]

/-- The speed computed by `execute_command` coincides with the claim-side
formula. -/
theorem commandSpeed_eq_claim (ps : List (String × PValue)) :
    commandSpeed ps = claimSpeed ps := by
  unfold commandSpeed claimSpeed
  cases h : lookupParam ps "speed" with
  | none => rfl
  | some v =>
      cases v with
      | str m => rfl
      | int n => rfl

/-- The emitted duration (`duration or default`, Python falsiness included)
coincides with the claim-side formula. -/
theorem durOrDefault_eq_claim (ps : List (String × PValue)) (dft : ℚ) :
    durOrDefault (commandDuration ps) dft = claimDuration ps dft := by
  unfold durOrDefault commandDuration claimDuration
  cases h : lookupParam ps "duration" with
  | none => rfl
  | some v =>
      cases v with
      | str s => rfl
      | int n => rfl

/-- C5 counterexample.  The claim says the emitted duration is the
command's duration parameter whenever one is present; but the Stop branch
of `execute_command` unconditionally emits duration 0, so a Stop command
carrying `duration = 5` emits 0, not 5.  (A second divergence, covered by
the amendment: a present duration value of 0 is falsy in Python's
`duration or default` and falls back to the default.) -/
theorem C5_counterexample :
    (execute_command ⟨.STOP, [("duration", .int 5), ("unit", .str "second")], 8/10⟩).map
        CommandData.duration = some (some 0)
    ∧ (some (some (5 : ℚ)) : Option (Option ℚ)) ≠ some (some (0 : ℚ)) := by
  refine ⟨rfl, ?_⟩
  simp

/-- C5 amended.  For the five locomotion actions, `execute_command` emits
wheel powers Forward=(+s,+s), Backward=(−s,−s), Left=(−s,+s),
Right=(+s,−s), Stop=(0,0) with s the claim's speed formula (150 scaled by
0.6 truncated / 1.4 / unscaled), and durations: the duration parameter
(minutes ×60) when present and nonzero for the four moving actions
(defaults 1.0s move, 0.5s turn), while Stop always emits duration 0. -/
theorem C5_locomotion_amended (ps : List (String × PValue)) (conf : ℚ) :
    execute_command ⟨.MOVE_FORWARD, ps, conf⟩ =
      some ⟨"move_forward", claimSpeed ps, some (claimSpeed ps), some (claimSpeed ps),
            some (claimDuration ps 1), none, false⟩
    ∧ execute_command ⟨.MOVE_BACKWARD, ps, conf⟩ =
      some ⟨"move_backward", claimSpeed ps, some (-(claimSpeed ps)), some (-(claimSpeed ps)),
            some (claimDuration ps 1), none, false⟩
    ∧ execute_command ⟨.TURN_LEFT, ps, conf⟩ =
      some ⟨"turn_left", claimSpeed ps, some (-(claimSpeed ps)), some (claimSpeed ps),
            some (claimDuration ps (1/2)), none, false⟩
    ∧ execute_command ⟨.TURN_RIGHT, ps, conf⟩ =
      some ⟨"turn_right", claimSpeed ps, some (claimSpeed ps), some (-(claimSpeed ps)),
            some (claimDuration ps (1/2)), none, false⟩
    ∧ execute_command ⟨.STOP, ps, conf⟩ =
      some ⟨"stop", claimSpeed ps, some 0, some 0, some 0, none, false⟩ := by
  have hs := commandSpeed_eq_claim ps
  have hd := durOrDefault_eq_claim ps
  refine ⟨?_, ?_, ?_, ?_, ?_⟩
  · rw [show execute_command ⟨.MOVE_FORWARD, ps, conf⟩ =
      some ⟨"move_forward", commandSpeed ps, some (commandSpeed ps), some (commandSpeed ps),
            some (durOrDefault (commandDuration ps) 1), none, false⟩ from rfl, hs, hd 1]
  · rw [show execute_command ⟨.MOVE_BACKWARD, ps, conf⟩ =
      some ⟨"move_backward", commandSpeed ps, some (-(commandSpeed ps)),
            some (-(commandSpeed ps)),
            some (durOrDefault (commandDuration ps) 1), none, false⟩ from rfl, hs, hd 1]
  · rw [show execute_command ⟨.TURN_LEFT, ps, conf⟩ =
      some ⟨"turn_left", commandSpeed ps, some (-(commandSpeed ps)), some (commandSpeed ps),
            some (durOrDefault (commandDuration ps) (1/2)), none, false⟩ from rfl, hs, hd (1/2)]
  · rw [show execute_command ⟨.TURN_RIGHT, ps, conf⟩ =
      some ⟨"turn_right", commandSpeed ps, some (commandSpeed ps), some (-(commandSpeed ps)),
            some (durOrDefault (commandDuration ps) (1/2)), none, false⟩ from rfl, hs, hd (1/2)]
  · rw [show execute_command ⟨.STOP, ps, conf⟩ =
      some ⟨"stop", commandSpeed ps, some 0, some 0, some 0, none, false⟩ from rfl, hs]

/-- Witness for C5 amended: "turn left" with a slow qualifier and a
2-minute duration yields wheel powers (−90, +90) for 120 seconds. -/
theorem C5_locomotion_amended_witness :
    execute_command ⟨.TURN_LEFT,
        [("speed", .str "slow"), ("duration", .int 2), ("unit", .str "minute")], 8/10⟩ =
      some ⟨"turn_left", 90, some (-90), some 90, some 120, none, false⟩ := by
  have h := (C5_locomotion_amended
    [("speed", .str "slow"), ("duration", .int 2), ("unit", .str "minute")] (8/10)).2.2.1
  rw [h]
  have h1 : claimSpeed [("speed", .str "slow"), ("duration", .int 2), ("unit", .str "minute")]
      = pyInt ((150 : ℚ) * (6/10)) := rfl
  have h2 : ((150 : ℚ) * (6/10)) = 90 := by norm_num
  have h3 : pyInt (90 : ℚ) = 90 := rfl
  have h4 : claimDuration [("speed", .str "slow"), ("duration", .int 2), ("unit", .str "minute")]
      (1/2) = ((120 : Int) : ℚ) := rfl
  rw [h1, h2, h3, h4]
  norm_num

/-- Lookup skips a prefix in which the key is absent. -/
theorem lookupParam_append_none (ps qs : List (String × PValue)) (k : String)
    (h : lookupParam ps k = none) : lookupParam (ps ++ qs) k = lookupParam qs k := by
  unfold lookupParam at h ⊢
  have hfind : ps.find? (fun p => p.1 == k) = none := Option.map_eq_none.mp h
  rw [List.find?_append, hfind, Option.none_or]

/-- Lookup finds a binding present in the prefix. -/
theorem lookupParam_append_some (ps qs : List (String × PValue)) (k : String) (v : PValue)
    (h : lookupParam ps k = some v) : lookupParam (ps ++ qs) k = some v := by
  unfold lookupParam at h ⊢
  obtain ⟨pr, hpr, hv⟩ := Option.map_eq_some.mp h
  rw [List.find?_append, hpr]
  show Option.map (fun p => p.2) (some pr) = some v
  simp [hv]

/-- Lookup misses a singleton dict with a different key. -/
theorem lookupParam_single_ne (k j : String) (v : PValue) (h : (j == k) = false) :
    lookupParam [(j, v)] k = none := by
  unfold lookupParam
  rw [List.find?_singleton]
  dsimp only
  rw [h]
  rfl

/-- The object-extraction section inserts at most the "object" key. -/
theorem objectParams_fst_shape (r : RE) (cs : Chars) :
    (objectParams r cs).1 = [] ∨ ∃ v, (objectParams r cs).1 = [("object", PValue.str v)] := by
  unfold objectParams
  by_cases hg : numGroups r > 0
  · rw [if_pos hg]
    cases h : lastSome ((reGroups r cs).getD []) with
    | none => exact Or.inl rfl
    | some g =>
        dsimp only
        by_cases he : g.isEmpty
        · rw [if_pos he]; exact Or.inl rfl
        · rw [if_neg he]; exact Or.inr ⟨String.mk g, rfl⟩
  · rw [if_neg hg]
    cases h : (pySplit cs).find? (fun w => String.mk w ∈ known_objects) with
    | none => exact Or.inl rfl
    | some w => exact Or.inr ⟨String.mk w, rfl⟩

/-- The speed section inserts at most the "speed" key. -/
theorem speedParams_shape (cs : Chars) :
    speedParams cs = [] ∨ ∃ v, speedParams cs = [("speed", PValue.str v)] := by
  unfold speedParams
  cases h : reGroups speedRE cs with
  | none => exact Or.inl rfl
  | some gs =>
      cases gs with
      | nil => exact Or.inl rfl
      | cons g rest =>
          cases g with
          | none => exact Or.inl rfl
          | some g0 => exact Or.inr ⟨String.mk g0, rfl⟩

/-- The duration section inserts at most "duration" and "unit". -/
theorem durationParams_shape (cs : Chars) :
    durationParams cs = []
    ∨ ∃ n u, durationParams cs = [("duration", PValue.int n), ("unit", PValue.str u)] := by
  unfold durationParams
  cases h : reGroups durationRE cs with
  | none => exact Or.inl rfl
  | some gs =>
      cases gs with
      | nil => exact Or.inl rfl
      | cons g rest =>
          cases g with
          | none => exact Or.inl rfl
          | some d =>
              cases rest with
              | nil => exact Or.inl rfl
              | cons g2 rest2 =>
                  cases g2 with
                  | none => exact Or.inl rfl
                  | some u => exact Or.inr ⟨digitsToNat d, String.mk u, rfl⟩

/-- Branch of `parse_command` for text that normalises to empty. -/
theorem parse_command_empty (text : String) (h : normText text = []) :
    parse_command text = ⟨.UNKNOWN, [], 0⟩ := by
  unfold parse_command
  dsimp only
  rw [h]
  rfl

/-- Branch of `parse_command` when no pattern matches. -/
theorem parse_command_unmatched (text : String) (hne : normText text ≠ [])
    (hm : findMatch command_patterns (normText text) = none) :
    parse_command text =
      ⟨.UNKNOWN, [("original_text", .str (String.mk (normText text)))], 0⟩ := by
  unfold parse_command
  dsimp only
  rw [if_neg (fun hc => hne (List.isEmpty_iff.mp hc)), hm]

/-- Branch of `parse_command` when the pattern loop finds a match:
parameters are object section (for object-bearing actions) then speed then
duration, confidence comes from the object section. -/
theorem parse_command_matched (text : String) (a : RobotAction) (r : RE)
    (hne : normText text ≠ [])
    (hm : findMatch command_patterns (normText text) = some (a, r)) :
    parse_command text =
      ⟨a, (if a = .FIND_OBJECT ∨ a = .FOLLOW_OBJECT ∨ a = .AVOID_OBSTACLE
            then objectParams r (normText text) else ([], 8/10)).1
          ++ speedParams (normText text) ++ durationParams (normText text),
       (if a = .FIND_OBJECT ∨ a = .FOLLOW_OBJECT ∨ a = .AVOID_OBSTACLE
            then objectParams r (normText text) else ([], 8/10)).2⟩ := by
  unfold parse_command
  dsimp only
  rw [if_neg (fun hc => hne (List.isEmpty_iff.mp hc)), hm]

/-- An action returned by the pattern loop is one of the dict keys. -/
theorem findMatch_action_mem :
    ∀ (l : List (RobotAction × List RE)) (cs : Chars) (a : RobotAction) (r : RE),
      findMatch l cs = some (a, r) → a ∈ l.map Prod.fst := by
  intro l
  induction l with
  | nil => intro cs a r h; simp [findMatch] at h
  | cons p rest ih =>
      intro cs a r h
      obtain ⟨pa, pps⟩ := p
      unfold findMatch at h
      cases hf : pps.find? (fun re => (reSearch re cs).isSome) with
      | some r0 =>
          rw [hf] at h
          injection h with h2
          have hpa : pa = a := congrArg Prod.fst h2
          rw [List.map_cons]
          rw [← hpa]
          exact List.mem_cons_self _ _
      | none =>
          rw [hf] at h
          exact List.mem_cons_of_mem _ (ih cs a r h)

/-- The nested action/pattern loop equals a single first-match scan over
the flattened (action, pattern) list. -/
theorem findMatch_eq_flat :
    ∀ (l : List (RobotAction × List RE)) (cs : Chars),
      findMatch l cs = (l.flatMap (fun p => p.2.map (fun r => (p.1, r)))).find?
        (fun q => (reSearch q.2 cs).isSome) := by
  intro l cs
  induction l with
  | nil => rfl
  | cons p rest ih =>
      obtain ⟨a, ps⟩ := p
      unfold findMatch
      rw [List.flatMap_cons, List.find?_append, List.find?_map]
      have hcomp : ((fun q : RobotAction × RE => (reSearch q.2 cs).isSome)
          ∘ (fun r => (a, r))) = (fun r => (reSearch r cs).isSome) := rfl
      rw [hcomp]
      cases hf : ps.find? (fun r => (reSearch r cs).isSome) with
      | some r0 => rfl
      | none =>
          rw [Option.map_none', Option.none_or]
          exact ih

/-- A first-match scan returns the element at index i when it matches
and everything earlier does not. -/
theorem find?_of_get? {α : Type} (p : α → Bool) :
    ∀ (l : List α) (i : Nat) (x : α),
      l.get? i = some x → p x = true →
      (∀ j, j < i → ((l.get? j).map p).getD false = false) →
      l.find? p = some x := by
  intro l
  induction l with
  | nil => intro i x h; simp at h
  | cons y ys ih =>
      intro i x hget hp hearlier
      cases i with
      | zero =>
          simp only [List.get?_cons_zero, Option.some.injEq] at hget
          rw [← hget] at hp
          rw [List.find?_cons_of_pos _ hp, hget]
      | succ n =>
          have hy : p y = false := by
            have := hearlier 0 (Nat.succ_pos n)
            simpa using this
          rw [List.find?_cons_of_neg _ (by rw [hy]; exact Bool.false_ne_true)]
          exact ih n x (by simpa using hget) hp
            (fun j hj => by
              have := hearlier (j + 1) (Nat.succ_lt_succ hj)
              simpa using this)

/-- C7.  `parse_command` is total by construction; text that normalises
to empty yields Unknown with no parameters and confidence 0, and nonempty
text matching no pattern yields Unknown with confidence 0 and exactly the
"original_text" parameter. -/
theorem C7_unknown_handling (text : String) :
    (normText text = [] → parse_command text = ⟨.UNKNOWN, [], 0⟩)
    ∧ (normText text ≠ [] → findMatch command_patterns (normText text) = none →
        parse_command text =
          ⟨.UNKNOWN, [("original_text", .str (String.mk (normText text)))], 0⟩) :=
  ⟨parse_command_empty text, parse_command_unmatched text⟩

/-- Witness for C7 at "" and "xyz abc". -/
theorem C7_unknown_handling_witness :
    parse_command "" = ⟨.UNKNOWN, [], 0⟩
    ∧ parse_command "xyz abc" =
        ⟨.UNKNOWN, [("original_text", .str "xyz abc")], 0⟩ := by
  constructor
  · exact (C7_unknown_handling "").1 rfl
  · exact (C7_unknown_handling "xyz abc").2 (by decide) rfl

/-- C10.  A parse that returns Unknown carries none of the "speed",
"duration" or "unit" keys: modifier extraction runs only after a pattern
has matched. -/
theorem C10_unknown_no_modifiers (text : String)
    (h : (parse_command text).action = .UNKNOWN) :
    lookupParam (parse_command text).parameters "speed" = none
    ∧ lookupParam (parse_command text).parameters "duration" = none
    ∧ lookupParam (parse_command text).parameters "unit" = none := by
  cases hcs : normText text with
  | nil =>
      rw [parse_command_empty text hcs]
      exact ⟨rfl, rfl, rfl⟩
  | cons c cs0 =>
      have hne : normText text ≠ [] := by rw [hcs]; exact List.cons_ne_nil c cs0
      cases hm : findMatch command_patterns (normText text) with
      | none =>
          rw [parse_command_unmatched text hne hm]
          exact ⟨lookupParam_single_ne _ _ _ (by decide),
                 lookupParam_single_ne _ _ _ (by decide),
                 lookupParam_single_ne _ _ _ (by decide)⟩
      | some p =>
          obtain ⟨a, r⟩ := p
          rw [parse_command_matched text a r hne hm] at h
          dsimp only at h
          have hmem := findMatch_action_mem command_patterns (normText text) a r hm
          rw [h] at hmem
          exact absurd hmem (by decide)

/-- Witness for C10 at "xyz abc". -/
theorem C10_unknown_no_modifiers_witness :
    lookupParam (parse_command "xyz abc").parameters "speed" = none
    ∧ lookupParam (parse_command "xyz abc").parameters "duration" = none
    ∧ lookupParam (parse_command "xyz abc").parameters "unit" = none :=
  C10_unknown_no_modifiers "xyz abc" rfl

/-- C2.  For any input whose normalised text is nonempty: if the i-th
entry of the flattened (action, pattern) enumeration matches and no
earlier entry does, the parse returns that entry's action — the first
matching pattern wins and later patterns cannot influence the result. -/
theorem C2_first_pattern_wins (text : String) (i : Nat) (pat : RobotAction × RE)
    (hne : normText text ≠ [])
    (hget : flatPatterns.get? i = some pat)
    (hmatch : (reSearch pat.2 (normText text)).isSome = true)
    (hearlier : ∀ j, j < i → matchesAt (normText text) j = false) :
    (parse_command text).action = pat.1 := by
  have hfind : flatPatterns.find? (fun q => (reSearch q.2 (normText text)).isSome)
      = some pat :=
    find?_of_get? _ flatPatterns i pat hget hmatch
      (fun j hj => hearlier j hj)
  have hm : findMatch command_patterns (normText text) = some pat := by
    rw [findMatch_eq_flat]
    exact hfind
  obtain ⟨a, r⟩ := pat
  rw [parse_command_matched text a r hne hm]

/-- Witness for C2: "move forward" is claimed by the very first entry of
the enumeration. -/
theorem C2_first_pattern_wins_witness :
    (parse_command "move forward").action = RobotAction.MOVE_FORWARD :=
  C2_first_pattern_wins "move forward" 0
    (RobotAction.MOVE_FORWARD,
      seqL [.wb, .grp 1 (altL [rlit "move", rlit "go", rlit "walk", rlit "drive"]),
            wS, .grp 2 (altL [rlit "forward", rlit "ahead", rlit "straight"]), .wb])
    (by decide) rfl rfl (fun j hj => absurd hj (Nat.not_lt_zero j))

/-- In the assembled parameter dict, looking up "object" only consults
the object-extraction section. -/
theorem lookupParam_object_part (r : RE) (cs : Chars) :
    lookupParam ((objectParams r cs).1 ++ speedParams cs ++ durationParams cs) "object"
      = lookupParam (objectParams r cs).1 "object" := by
  have hs : lookupParam (speedParams cs) "object" = none := by
    rcases speedParams_shape cs with h | ⟨v, h⟩ <;> rw [h]
    · rfl
    · exact lookupParam_single_ne _ _ _ (by decide)
  have hd : lookupParam (durationParams cs) "object" = none := by
    rcases durationParams_shape cs with h | ⟨n, u, h⟩ <;> rw [h] <;> rfl
  rcases objectParams_fst_shape r cs with h | ⟨v, h⟩ <;> rw [h]
  · rw [List.nil_append, lookupParam_append_none _ _ _ hs, hd]
    rfl
  · have hv : lookupParam [("object", PValue.str v)] "object" = some (PValue.str v) := rfl
    rw [List.append_assoc,
        lookupParam_append_some [("object", PValue.str v)] _ _ _ hv, hv]

/-- C6.  For a matched object-bearing action: when the pattern has
capture groups, the object is the last non-None capture (dropped if
empty), with confidence 0.9 if it is a known object and 0.8 otherwise;
when the pattern has no capture groups, the first whitespace token that is
a known object is used with confidence 0.7, else no object and 0.8. -/
theorem C6_object_confidence (text : String) (a : RobotAction) (r : RE)
    (hne : normText text ≠ [])
    (hm : findMatch command_patterns (normText text) = some (a, r))
    (ha : a = .FIND_OBJECT ∨ a = .FOLLOW_OBJECT ∨ a = .AVOID_OBSTACLE) :
    (lookupParam (parse_command text).parameters "object", (parse_command text).confidence)
      = (if numGroups r > 0 then
          match lastSome ((reGroups r (normText text)).getD []) with
          | some g =>
              if g.isEmpty then (none, 8/10)
              else (some (PValue.str (String.mk g)),
                    if String.mk g ∈ known_objects then (9 : ℚ)/10 else 8/10)
          | none => (none, 8/10)
        else
          match (pySplit (normText text)).find? (fun w => String.mk w ∈ known_objects) with
          | some w => (some (PValue.str (String.mk w)), 7/10)
          | none => (none, 8/10)) := by
  rw [parse_command_matched text a r hne hm]
  dsimp only
  rw [if_pos ha]
  rw [lookupParam_object_part r (normText text)]
  unfold objectParams
  by_cases hg : numGroups r > 0
  · rw [if_pos hg, if_pos hg]
    cases h : lastSome ((reGroups r (normText text)).getD []) with
    | none => rfl
    | some g =>
        dsimp only
        by_cases he : g.isEmpty
        · rw [if_pos he, if_pos he]
          rfl
        · rw [if_neg he, if_neg he]
          rfl
  · rw [if_neg hg, if_neg hg]
    cases h : (pySplit (normText text)).find? (fun w => String.mk w ∈ known_objects) with
    | none => rfl
    | some w => rfl

/-- Witness for C6: "follow cat" captures the known object "cat" and
gets confidence 0.9. -/
theorem C6_object_confidence_witness :
    (lookupParam (parse_command "follow cat").parameters "object",
     (parse_command "follow cat").confidence)
      = (some (PValue.str "cat"), (9 : ℚ)/10) := by
  have h := C6_object_confidence "follow cat" .FOLLOW_OBJECT
    (seqL [.wb, .grp 1 (altL [rlit "follow", rlit "chase", rlit "track"]),
           wS, .grp 2 wW, .wb])
    (by decide) rfl (Or.inr (Or.inl rfl))
  exact h.trans (by rfl)

/-- C8.  When a pattern has matched and the duration regex finds
"<integer> <unit>" in the text, the parameters carry "duration" mapped to
that integer and "unit" mapped to the singular unit form. -/
theorem C8_duration_extraction (text : String) (a : RobotAction) (r : RE)
    (hne : normText text ≠ [])
    (hm : findMatch command_patterns (normText text) = some (a, r)) :
    ∀ d u rest, reGroups durationRE (normText text) = some (some d :: some u :: rest) →
      lookupParam (parse_command text).parameters "duration"
          = some (.int (digitsToNat d))
      ∧ lookupParam (parse_command text).parameters "unit"
          = some (.str (String.mk u)) := by
  intro d u rest hgr
  rw [parse_command_matched text a r hne hm]
  dsimp only
  have hdur : durationParams (normText text)
      = [("duration", .int (digitsToNat d)), ("unit", .str (String.mk u))] := by
    unfold durationParams
    rw [hgr]
  have hop : (if a = .FIND_OBJECT ∨ a = .FOLLOW_OBJECT ∨ a = .AVOID_OBSTACLE
        then objectParams r (normText text) else ([], 8/10)).1 = []
      ∨ ∃ v, (if a = .FIND_OBJECT ∨ a = .FOLLOW_OBJECT ∨ a = .AVOID_OBSTACLE
        then objectParams r (normText text) else ([], 8/10)).1
          = [("object", PValue.str v)] := by
    split
    · exact objectParams_fst_shape r (normText text)
    · exact Or.inl rfl
  have hkey : ∀ k : String, ("object" == k) = false → ("speed" == k) = false →
      lookupParam ((if a = .FIND_OBJECT ∨ a = .FOLLOW_OBJECT ∨ a = .AVOID_OBSTACLE
          then objectParams r (normText text) else ([], 8/10)).1
        ++ speedParams (normText text) ++ durationParams (normText text)) k
      = lookupParam (durationParams (normText text)) k := by
    intro k hko hks
    have h1 : lookupParam (if a = .FIND_OBJECT ∨ a = .FOLLOW_OBJECT ∨ a = .AVOID_OBSTACLE
        then objectParams r (normText text) else ([], 8/10)).1 k = none := by
      rcases hop with h | ⟨v, h⟩ <;> rw [h]
      · rfl
      · exact lookupParam_single_ne _ _ _ hko
    have h2 : lookupParam (speedParams (normText text)) k = none := by
      rcases speedParams_shape (normText text) with h | ⟨v, h⟩ <;> rw [h]
      · rfl
      · exact lookupParam_single_ne _ _ _ hks
    rw [List.append_assoc, lookupParam_append_none _ _ _ h1,
        lookupParam_append_none _ _ _ h2]
  constructor
  · rw [hkey "duration" (by decide) (by decide), hdur]
    rfl
  · rw [hkey "unit" (by decide) (by decide), hdur]
    rfl

/-- Witness for C8: "move forward for 5 seconds" yields duration 5 and
unit "second". -/
theorem C8_duration_extraction_witness :
    lookupParam (parse_command "move forward for 5 seconds").parameters "duration"
        = some (PValue.int 5)
    ∧ lookupParam (parse_command "move forward for 5 seconds").parameters "unit"
        = some (PValue.str "second") := by
  have h := C8_duration_extraction "move forward for 5 seconds" .MOVE_FORWARD
    (seqL [.wb, .grp 1 (altL [rlit "move", rlit "go", rlit "walk", rlit "drive"]),
           wS, .grp 2 (altL [rlit "forward", rlit "ahead", rlit "straight"]), .wb])
    (by decide) rfl ['5'] "second".data [] rfl
  exact ⟨h.1, h.2⟩
